import Mathlib

/-!
Verification of the day-record computation core of a power-plant data-entry
application (React Native / TypeScript).

The embedding is shallow: JavaScript numbers are modelled as rationals (ℚ),
raw meter readings are `String`s, JavaScript objects used as string-keyed
records (`Record<string, T>`) are association lists `List (String × T)`
with first-match lookup, and the external key-value store / remote database
are explicit state values threaded through the operations.  Asynchronous
external calls that can fail are modelled by explicit outcome parameters
(one `Bool` per external write), and thrown/propagated exceptions by
`Except`.  All functions below are translated from the TypeScript sources
(`storage.ts` / `guestAuth.ts`, `supabaseSync.ts`, `excelExport.ts`,
`DayContext`, `MonthDaysModal.tsx`, `HoursInputField.tsx`).
-/

namespace PP

/-- JavaScript string truthiness: a string is truthy iff it is non-empty. -/
def truthy (s : String) : Bool := !(s == "")

/-- Truthiness of an optional-chaining result (`undefined` is falsy). -/
def otruthy (s : Option String) : Bool :=
  match s with
  | none => false
  | some s => truthy s

/-- JavaScript `x || dflt` on an optional string field: the default is taken
when the field is `undefined` or the empty string. -/
def jsOr (v : Option String) (dflt : String) : String :=
  match v with
  | none => dflt
  | some s => if truthy s then s else dflt

/-- Property access `obj[k]` on a string-keyed JavaScript record, modelled as
first-match lookup in an association list (`undefined` ↦ `none`). -/
def getKey {α : Type} (l : List (String × α)) (k : String) : Option α :=
  match l with
  | [] => none
  | (k', v) :: rest => if k' == k then some v else getKey rest k

/-- Property assignment `obj[k] = v`: replaces the binding in place when the
key exists (JavaScript objects keep the original key position), otherwise
appends the new binding. -/
def setKey {α : Type} (l : List (String × α)) (k : String) (v : α) :
    List (String × α) :=
  match l with
  | [] => [(k, v)]
  | (k', v') :: rest =>
    if k' == k then (k, v) :: rest else (k', v') :: setKey rest k v

/-- Removal of every binding for a key (used for remote `delete().eq(...)`,
which removes all matching rows). -/
def removeKey {α : Type} (l : List (String × α)) (k : String) :
    List (String × α) :=
  l.filter (fun p => !(p.1 == k))

/-! ### Numeric parsing

`num(v)` in `storage.ts` is `Number(v)` guarded by `Number.isFinite`:
`Number("") = 0`, a decimal numeral parses to its value, anything else is
`NaN` and coerces to `0`.  `parseFloat(s) || 0` (used by the remote month
summary) instead parses the longest numeric prefix and falls back to `0`
on `NaN`.  The grammar modelled is the sign / digits / optional fraction
subset that the numeric keypad can produce; the exotic JavaScript forms
(hexadecimal, exponent notation, `Infinity`) do not occur in this data. -/

/-- Numeric value of a digit character. -/
def digitVal (c : Char) : ℕ := c.toNat - '0'.toNat

/-- Value of a digit list read as a base-10 integer. -/
def digitsToNat (cs : List Char) : ℕ :=
  cs.foldl (fun acc c => acc * 10 + digitVal c) 0

/-- Value of a digit list read as the fractional part after a decimal dot. -/
def fracToRat (cs : List Char) : ℚ :=
  cs.foldr (fun c acc => ((digitVal c : ℚ) + acc) / 10) 0

/-- Is the character ASCII whitespace (the forms JS `Number` trims)? -/
def isWs (c : Char) : Bool := c == ' ' || c == '\t' || c == '\n' || c == '\r'

/-- Parse an unsigned decimal numeral `digits`, `digits.digits`, `.digits`
or `digits.` ; `none` on anything else. -/
def parseUnsigned (cs : List Char) : Option ℚ :=
  let intPart := cs.takeWhile Char.isDigit
  let rest := cs.dropWhile Char.isDigit
  match rest with
  | [] => if intPart.isEmpty then none else some (digitsToNat intPart : ℚ)
  | '.' :: frac =>
    if frac.all Char.isDigit && !(intPart.isEmpty && frac.isEmpty) then
      if frac.isEmpty then some (digitsToNat intPart : ℚ)
      else some ((digitsToNat intPart : ℚ) + fracToRat frac)
    else none
  | _ => none

/-- JavaScript `Number(s)` on the decimal-numeral subset: whitespace-only
(including empty) strings give `0`, a signed decimal numeral gives its
value, anything else is `NaN` (`none`). -/
def jsNumber (s : String) : Option ℚ :=
  let cs := ((s.toList.dropWhile isWs).reverse.dropWhile isWs).reverse
  match cs with
  | [] => some 0
  | '-' :: rest => (parseUnsigned rest).map (fun q => -q)
  | '+' :: rest => parseUnsigned rest
  | _ => parseUnsigned cs

/-- `num` from `storage.ts` on an optional string field:
`Number.isFinite(Number(v)) ? Number(v) : 0` (`Number(undefined)` is `NaN`).
Empty and unparsable readings coerce to `0`. -/
def num (v : Option String) : ℚ :=
  match v with
  | none => 0
  | some s => (jsNumber s).getD 0

/-- Longest unsigned numeric prefix (digits, optional fraction), as
consumed by `parseFloat` after the sign. -/
def floatPfxCore (cs : List Char) : Option ℚ :=
  let intPart := cs.takeWhile Char.isDigit
  let rest := cs.dropWhile Char.isDigit
  let frac := match rest with
    | '.' :: r => r.takeWhile Char.isDigit
    | _ => []
  if intPart.isEmpty && frac.isEmpty then none
  else if frac.isEmpty then some (digitsToNat intPart : ℚ)
  else some ((digitsToNat intPart : ℚ) + fracToRat frac)

/-- Longest numeric prefix of a character list (sign, digits, optional
fraction), as consumed by `parseFloat`. -/
def floatPfxVal (cs : List Char) : Option ℚ :=
  match cs with
  | '-' :: rest => (floatPfxCore rest).map (fun q => -q)
  | '+' :: rest => floatPfxCore rest
  | _ => floatPfxCore cs

/-- JavaScript `parseFloat(s) || 0`: parse the longest numeric prefix after
trimming leading whitespace, coercing `NaN` to `0` (a parsed `0` also short
circuits to `0`, the same value). -/
def parseFloatOr0 (s : String) : ℚ :=
  (floatPfxVal (s.toList.dropWhile isWs)).getD 0

/-! ### Day Record Model (`storage.ts`) -/

/-- Feeder entry of a day record: raw start/end-of-day meter reading text.
The TypeScript field `end` is a Lean keyword and appears here as `endR`;
an absent field reads as `undefined`, which the code only ever consumes
through falsiness checks and `num` (both of which treat it exactly as
`""`), so fields are modelled as total strings. -/
structure FeederData where
  start : String
  endR : String
deriving DecidableEq, Repr

/-- Turbine entry of a day record: raw previous/present readings and
operating hours text. -/
structure TurbineData where
  previous : String
  present : String
  hours : String
deriving DecidableEq, Repr

/-- A day record: one calendar date's feeder and turbine entries.  The
`feeders`/`turbines` objects are association lists, so records that are
partial at the key level (possible for imported/hand-written storage
content) are representable. -/
structure DayData where
  dateKey : String
  feeders : List (String × FeederData)
  turbines : List (String × TurbineData)
deriving DecidableEq, Repr

/-- User settings (display name and decimal precision). -/
structure UserSettings where
  displayName : String
  decimalPrecision : ℚ
deriving DecidableEq, Repr

/-- The fixed feeder identifier set. -/
def FEEDERS : List String := ["F2", "F3", "F4", "F5"]

/-- The fixed turbine identifier set. -/
def TURBINES : List String := ["A", "B", "C", "S"]

/-- `defaultDay`: the blank record for a date, with an entry for every
feeder and turbine identifier; readings default to `""` and hours to
`"24"`. -/
def defaultDay (dateKey : String) : DayData :=
  { dateKey := dateKey
    feeders := FEEDERS.map (fun f => (f, { start := "", endR := "" }))
    turbines :=
      TURBINES.map (fun t => (t, { previous := "", present := "", hours := "24" })) }

/-- `monthKey`: the first seven characters (`YYYY-MM`) of a date key
(`dateKey.slice(0, 7)`). -/
def monthKey (dateKey : String) : String := ⟨dateKey.toList.take 7⟩

/-- Stable insertion into a sorted list (helper for the sort below). -/
def sortedInsert {α : Type} (le : α → α → Bool) (x : α) : List α → List α
  | [] => [x]
  | y :: ys => if le x y then x :: y :: ys else y :: sortedInsert le x ys

/-- Stable comparison sort, modelling JavaScript `Array.prototype.sort`
(stable since ES2019); string order on ASCII date keys coincides with
`localeCompare` and the default string sort. -/
def sortByLe {α : Type} (le : α → α → Bool) (l : List α) : List α :=
  l.foldr (sortedInsert le) []

/-! ### Derivation Engine (`storage.ts`) -/

/-- `feederExport`: the signed sum over the fixed feeder set of
`(start - end)`, raw readings coerced through `num`. -/
def feederExport (day : DayData) : ℚ :=
  FEEDERS.foldl
    (fun acc f =>
      let start := num (((getKey day.feeders f).map FeederData.start))
      let endv := num (((getKey day.feeders f).map FeederData.endR))
      let diff := start - endv
      acc + diff)
    0

/-- `turbineProductionMwh`: the sum over the fixed turbine set of
`(present - previous)`. -/
def turbineProductionMwh (day : DayData) : ℚ :=
  TURBINES.foldl
    (fun acc t =>
      let prev := num (((getKey day.turbines t).map TurbineData.previous))
      let pres := num (((getKey day.turbines t).map TurbineData.present))
      acc + (pres - prev))
    0

/-- The derived per-turbine computation row. -/
structure TurbineComputed where
  prev : ℚ
  pres : ℚ
  hours : ℚ
  diff : ℚ
  mwPerHr : ℚ
deriving DecidableEq, Repr

/-- `turbineRowComputed`: the per-turbine derived row; hours are floored at
`0.000001` to avoid division by zero and default to `"24"` when empty or
absent. -/
def turbineRowComputed (day : DayData) (t : String) : TurbineComputed :=
  let prev := num (((getKey day.turbines t).map TurbineData.previous))
  let pres := num (((getKey day.turbines t).map TurbineData.present))
  let hours := max (1 / 1000000 : ℚ)
    (num (some (jsOr ((getKey day.turbines t).map TurbineData.hours) "24")))
  let diff := pres - prev
  let mwPerHr := diff / hours
  { prev := prev, pres := pres, hours := hours, diff := diff, mwPerHr := mwPerHr }

/-- `gasForTurbine`: tiered gas-consumption estimate (m³); the tier is
selected by the generation rate `mwPerHr` alone. -/
def gasForTurbine (diffMwh mwPerHr : ℚ) : ℚ :=
  let p := diffMwh
  let r := mwPerHr
  if r ≤ 3 then p * 1000
  else if r ≤ 5 then p * 700
  else if r ≤ 8 then p * 500
  else p * 420

/-- `m3ToMMscf`: fixed-constant conversion `m3 * 35.3146667 / 1_000_000`. -/
def m3ToMMscf (m3 : ℚ) : ℚ :=
  (m3 * (353146667 / 10000000)) / 1000000

/-! ### Day statistics for exports (`excelExport.ts`) -/

/-- Result of `computeDayStats`. -/
structure DayStats where
  production : ℚ
  consumption : ℚ
  exportVal : ℚ
  isExport : Bool
  gasConsumed : ℚ
deriving DecidableEq, Repr

/-- `computeDayStats`: the per-day statistics consumed by the Excel and
text report generators. -/
def computeDayStats (day : DayData) : DayStats :=
  let production := turbineProductionMwh day
  let exportVal := feederExport day
  let consumption := production - exportVal
  let isExport := decide (0 ≤ exportVal)
  let totalGas :=
    TURBINES.foldl
      (fun acc t =>
        let row := turbineRowComputed day t
        acc + gasForTurbine row.diff row.mwPerHr)
      0
  { production := production, consumption := consumption,
    exportVal := exportVal, isExport := isExport, gasConsumed := totalGas }

/-- Result of the `useMemo` block of `CalculationsScreen`. -/
structure CalcResults where
  production : ℚ
  exportVal : ℚ
  consumption : ℚ
  totalGasM3 : ℚ
  totalGasMMscf : ℚ
deriving DecidableEq, Repr

/-- The calculations displayed by `CalculationsScreen`: production, export
value, consumption and the gas totals, all recomputed from the day record
on every render. -/
def calculationsScreenResults (day : DayData) : CalcResults :=
  let production := turbineProductionMwh day
  let exportVal := feederExport day
  let consumption := production - exportVal
  let turbineData := TURBINES.map (fun t =>
    let computed := turbineRowComputed day t
    let gasM3 := gasForTurbine computed.diff computed.mwPerHr
    let gasMMscf := m3ToMMscf gasM3
    (gasM3, gasMMscf))
  let totalGasM3 := turbineData.foldl (fun a r => a + r.1) 0
  let totalGasMMscf := turbineData.foldl (fun a r => a + r.2) 0
  { production := production, exportVal := exportVal,
    consumption := consumption, totalGasM3 := totalGasM3,
    totalGasMMscf := totalGasMMscf }

/-! ### Previous-date computation (`getPreviousDateKey`)

`new Date(dateKey)` parses the strict ISO form `YYYY-MM-DD` (an
out-of-range component yields an invalid date), `setDate(getDate() - 1)`
performs calendar subtraction of one day, and the result is re-formatted
with zero-padded month and day.  The embedding assumes a UTC environment,
where the local-time getters agree with the parsed UTC components. -/

/-- Gregorian leap-year test. -/
def isLeap (y : ℕ) : Bool := (y % 4 == 0 && y % 100 != 0) || (y % 400 == 0)

/-- Number of days in a month. -/
def daysInMonth (y m : ℕ) : ℕ :=
  if m == 2 then (if isLeap y then 29 else 28)
  else if m == 4 || m == 6 || m == 9 || m == 11 then 30
  else 31

/-- Split a character list at every `'-'` (the structure of an ISO date
string). -/
def splitDash : List Char → List (List Char)
  | [] => [[]]
  | c :: rest =>
    match splitDash rest with
    | [] => [[]]
    | g :: gs => if c == '-' then [] :: g :: gs else (c :: g) :: gs

/-- Parse a strict `YYYY-MM-DD` date key; `none` models an invalid date
(`isNaN(date.getTime())`). -/
def parseDateKey (s : String) : Option (ℕ × ℕ × ℕ) :=
  match splitDash s.toList with
  | [ys, ms, ds] =>
    if ys.length == 4 && ms.length == 2 && ds.length == 2 &&
        ys.all Char.isDigit && ms.all Char.isDigit && ds.all Char.isDigit then
      let y := digitsToNat ys
      let m := digitsToNat ms
      let d := digitsToNat ds
      if 1 ≤ m ∧ m ≤ 12 ∧ 1 ≤ d ∧ d ≤ daysInMonth y m then some (y, m, d)
      else none
    else none
  | _ => none

/-- Zero-pad to two digits (`String(n).padStart(2, "0")`). -/
def pad2 (n : ℕ) : String :=
  if n < 10 then "0" ++ toString n else toString n

/-- `getPreviousDateKey`: the key of the immediately preceding calendar
date, or `""` when the date string fails to parse. -/
def getPreviousDateKey (dateKey : String) : String :=
  match parseDateKey dateKey with
  | none => ""
  | some (y, m, d) =>
    let prev :=
      if 1 < d then (y, m, d - 1)
      else if 1 < m then (y, m - 1, daysInMonth y (m - 1))
      else (y - 1, 12, 31)
    toString prev.1 ++ "-" ++ pad2 prev.2.1 ++ "-" ++ pad2 prev.2.2

/-! ### Local persistence (`storage.ts` over AsyncStorage)

The local key-value store holds, under namespaced string keys, one
serialized `DayData` per date, a serialized sorted index of known dates,
and a serialized settings object.  It is modelled structurally: the day
map is an association list keyed by date key (a value that fails
`JSON.parse` behaves exactly like an absent one, both taking the `catch`
/ absence branch), the index is the parsed date list, and settings are
the parsed settings object.  `JSON.stringify`/`JSON.parse` of these
string-field records is the identity on the modelled values, so
serialization is elided. -/

/-- The local AsyncStorage contents. -/
structure LocalStore where
  days : List (String × DayData)
  index : List String
  settings : Option UserSettings
deriving DecidableEq, Repr

/-- The empty local store. -/
def emptyStore : LocalStore := { days := [], index := [], settings := none }

/-- `getDayData`: read the stored record for a date.  An absent or
unreadable value falls back to `defaultDay`.  The source spreads
`{ ...defaultDay(dateKey), ...parsed }`: a shallow top-level merge in
which every top-level field of the parsed record (always written by
`saveDayData` with all three fields) replaces the default one, so a
present stored record is returned as parsed — missing nested feeder or
turbine keys are not restored. -/
def getDayData (store : LocalStore) (dateKey : String) : DayData :=
  match getKey store.days dateKey with
  | some parsed => parsed
  | none => defaultDay dateKey

/-- `getDayDataWithLinkedValues`: read-time carry-forward enrichment.  The
previous date's raw stored record (no default merge) supplies feeder
`end` → today's `start` and turbine `present` → today's `previous`
whenever today's corresponding value is falsy and yesterday's is truthy.
`{ ...linkedFeeders[f], start: prevEnd }` on an absent entry spreads
`undefined`, leaving the other field `undefined` (modelled `""`). -/
def getDayDataWithLinkedValues (store : LocalStore) (dateKey : String) :
    DayData :=
  let currentDay := getDayData store dateKey
  let prevDateKey := getPreviousDateKey dateKey
  if prevDateKey == "" then currentDay
  else
    match getKey store.days prevDateKey with
    | none => currentDay
    | some prevDay =>
      let linkedFeeders :=
        FEEDERS.foldl
          (fun lf f =>
            let prevEnd := (getKey prevDay.feeders f).map FeederData.endR
            if otruthy prevEnd &&
                !(otruthy ((getKey currentDay.feeders f).map FeederData.start)) then
              setKey lf f
                { start := prevEnd.getD ""
                  endR := ((getKey lf f).map FeederData.endR).getD "" }
            else lf)
          currentDay.feeders
      let linkedTurbines :=
        TURBINES.foldl
          (fun lt t =>
            let prevPresent := (getKey prevDay.turbines t).map TurbineData.present
            if otruthy prevPresent &&
                !(otruthy ((getKey currentDay.turbines t).map TurbineData.previous)) then
              setKey lt t
                { previous := prevPresent.getD ""
                  present := ((getKey lt t).map TurbineData.present).getD ""
                  hours := ((getKey lt t).map TurbineData.hours).getD "" }
            else lt)
          currentDay.turbines
      { currentDay with feeders := linkedFeeders, turbines := linkedTurbines }

/-- `upsertDayIndex`: add a date to the sorted index of known dates.  Its
own storage failures are caught and logged, so it never throws; a failed
index write (`setOk = false`) leaves the index unchanged. -/
def upsertDayIndex (store : LocalStore) (dateKey : String) (setOk : Bool) :
    LocalStore :=
  if store.index.contains dateKey then store
  else if setOk then
    { store with index := sortByLe (fun a b => decide (a ≤ b)) (store.index ++ [dateKey]) }
  else store

/-- `saveDayData`: write the record under its date key, then upsert the
index.  A failure of the day write (`setDayOk = false`) is rethrown to
the caller; index-write failures are swallowed inside `upsertDayIndex`. -/
def saveDayData (store : LocalStore) (day : DayData)
    (setDayOk setIndexOk : Bool) : Except Unit LocalStore :=
  if setDayOk then
    .ok (upsertDayIndex { store with days := setKey store.days day.dateKey day }
          day.dateKey setIndexOk)
  else .error ()

/-- `deleteDayData`: remove the stored record, then rewrite the index
without the date.  Returns the post-state and whether the operation
completed without throwing (either write can fail; a failure after the
record removal leaves the store partially updated and rethrows). -/
def deleteDayData (store : LocalStore) (dateKey : String)
    (removeOk setIndexOk : Bool) : LocalStore × Bool :=
  if removeOk then
    let s1 := { store with days := removeKey store.days dateKey }
    if setIndexOk then
      ({ s1 with index := s1.index.filter (fun d => !(d == dateKey)) }, true)
    else (s1, false)
  else (store, false)

/-- `getAllDaysData`: the records of every indexed date, in index order,
each read through `getDayData` (defaulted when absent). -/
def getAllDaysData (store : LocalStore) : List DayData :=
  store.index.map (getDayData store)

/-- `getSettings`: stored settings merged over the defaults (the stored
object always carries both fields, so the merge resolves to it), with the
defaults on absence or read failure. -/
def getSettings (store : LocalStore) : UserSettings :=
  match store.settings with
  | some s => s
  | none => { displayName := "Engineer", decimalPrecision := 2 }

/-- `saveSettings`: merge a partial update over the current settings and
store the result (the failure-free execution; a storage failure rethrows
without changing the model state). -/
def saveSettings (store : LocalStore) (settings : UserSettings) : LocalStore :=
  { store with settings := some settings }

/-! ### Export / import (`exportAllData`, `importData`) -/

/-- The JSON export bundle: all local day records plus the settings (the
`exportedAt` timestamp is a clock read passed in by the caller). -/
structure ExportBundle where
  days : List DayData
  settings : UserSettings
  exportedAt : String
deriving DecidableEq, Repr

/-- `exportAllData`: serialize every indexed day record and the settings
into a bundle. -/
def exportAllData (store : LocalStore) (now : String) : ExportBundle :=
  { days := getAllDaysData store, settings := getSettings store,
    exportedAt := now }

/-- `importData`: save every day of the bundle through `saveDayData`, then
the settings (the failure-free execution, in which `importData` returns
`true`). -/
def importData (store : LocalStore) (bundle : ExportBundle) : LocalStore :=
  let afterDays :=
    bundle.days.foldl
      (fun s d =>
        match saveDayData s d true true with
        | .ok s' => s'
        | .error _ => s)
      store
  saveSettings afterDays bundle.settings

/-! ### Remote mirror (`supabaseSync.ts`)

The remote relational store is modelled structurally: child `feeders` and
`turbines` rows keyed by their parent `daily_data_id`, and parent
`daily_data` rows mapping id to date key.  The row-assembly and
row-deletion logic of `supabaseSync.ts` is embedded; the query transport
itself is the external collaborator. -/

/-- A `feeders` child row (readings stored as text). -/
structure FeederRow where
  feeder_name : String
  start_reading : String
  end_reading : String
deriving DecidableEq, Repr

/-- A `turbines` child row. -/
structure TurbineRow where
  turbine_name : String
  previous_reading : String
  present_reading : String
  hours : String
deriving DecidableEq, Repr

/-- The remote tables relevant to day records: child rows are keyed by the
parent `daily_data_id`; `dailyData` maps row id to `date_key`. -/
structure RemoteDB where
  feeders : List (String × FeederRow)
  turbines : List (String × TurbineRow)
  dailyData : List (String × String)
deriving DecidableEq, Repr

/-- The feeder rows `syncDayToSupabase` writes for a day: one upsert per
identifier in the fixed feeder set, an absent entry defaulting to
`{ start: "", end: "" }`. -/
def syncFeederRows (day : DayData) : List FeederRow :=
  FEEDERS.map (fun f =>
    let feeder := (getKey day.feeders f).getD { start := "", endR := "" }
    { feeder_name := f, start_reading := feeder.start,
      end_reading := feeder.endR })

/-- The turbine rows `syncDayToSupabase` writes for a day. -/
def syncTurbineRows (day : DayData) : List TurbineRow :=
  TURBINES.map (fun t =>
    let turbine := (getKey day.turbines t).getD
      { previous := "", present := "", hours := "24" }
    { turbine_name := t, previous_reading := turbine.previous,
      present_reading := turbine.present, hours := turbine.hours })

/-- `fetchDayFromSupabase`, row-assembly part (a present parent row):
build a complete record from the fetched child rows, with an entry for
every fixed identifier; a missing or null value defaults to `""` for
readings and `"24"` for hours (`found?.hours || "24"`). -/
def fetchDayAssemble (dateKey : String) (feedersData : Option (List FeederRow))
    (turbinesData : Option (List TurbineRow)) : DayData :=
  let feeders := FEEDERS.map (fun f =>
    let found := (feedersData.getD []).find? (fun fd => fd.feeder_name == f)
    (f, ({ start := jsOr (found.map FeederRow.start_reading) ""
           endR := jsOr (found.map FeederRow.end_reading) "" } : FeederData)))
  let turbines := TURBINES.map (fun t =>
    let found := (turbinesData.getD []).find? (fun td => td.turbine_name == t)
    (t, ({ previous := jsOr (found.map TurbineRow.previous_reading) ""
           present := jsOr (found.map TurbineRow.present_reading) ""
           hours := jsOr (found.map TurbineRow.hours) "24" } : TurbineData)))
  { dateKey := dateKey, feeders := feeders, turbines := turbines }

/-- A month-listing summary row (`DaySummary`). -/
structure DaySummary where
  id : String
  dateKey : String
  production : ℚ
  exportVal : ℚ
  consumption : ℚ
deriving DecidableEq, Repr

/-- The per-day summary computation of `fetchMonthDaysFromSupabase`
(lines 297–322): over the fetched child rows, production accumulates
`(present - previous) / 1000`, `exportVal` accumulates
`(end - start) / 1000`, and consumption is their difference; readings go
through `parseFloat(x) || 0`. -/
def monthDaySummary (id dateKey : String)
    (feedersData : Option (List FeederRow))
    (turbinesData : Option (List TurbineRow)) : DaySummary :=
  let production :=
    match turbinesData with
    | none => 0
    | some rows =>
      rows.foldl
        (fun acc t =>
          let prev := parseFloatOr0 t.previous_reading
          let pres := parseFloatOr0 t.present_reading
          acc + (pres - prev) / 1000)
        0
  let exportVal :=
    match feedersData with
    | none => 0
    | some rows =>
      rows.foldl
        (fun acc f =>
          let start := parseFloatOr0 f.start_reading
          let endv := parseFloatOr0 f.end_reading
          acc + (endv - start) / 1000)
        0
  { id := id, dateKey := dateKey, production := production,
    exportVal := exportVal, consumption := production - exportVal }

/-- `deleteDayFromSupabase`: delete the feeder child rows, then the
turbine child rows, then the parent `daily_data` row, stopping with
`false` at the first failing step (a failed step deletes nothing). -/
def deleteDayFromSupabase (db : RemoteDB) (dayId : String)
    (feedersOk turbinesOk dayOk : Bool) : RemoteDB × Bool :=
  if !feedersOk then (db, false)
  else
    let db1 := { db with feeders := removeKey db.feeders dayId }
    if !turbinesOk then (db1, false)
    else
      let db2 := { db1 with turbines := removeKey db1.turbines dayId }
      if !dayOk then (db2, false)
      else ({ db2 with dailyData := removeKey db2.dailyData dayId }, true)

/-! ### Sync orchestration (`DayContext` in the app layer,
`MonthDaysModal.confirmDelete`) -/

/-- `saveDay` of `DayContext`: write locally first (`saveDayData`, whose
failure propagates), then — only when a session exists — mirror to the
remote, catching and logging any remote error.  The remote outcome is an
explicit parameter (`.error ()` models a thrown sync error, `.ok b` a
sync returning `b`); it is consulted only inside the swallowed branch. -/
def saveDay (store : LocalStore) (day : DayData) (dateKey : String)
    (setDayOk setIndexOk : Bool) (hasUser : Bool)
    (remoteOutcome : Except Unit Bool) : Except Unit LocalStore :=
  let dayToSave := { day with dateKey := dateKey }
  match saveDayData store dayToSave setDayOk setIndexOk with
  | .error e => .error e
  | .ok s =>
    if hasUser then
      match remoteOutcome with
      | .ok _ => .ok s
      | .error _ => .ok s
    else .ok s

/-- `confirmDelete` of `MonthDaysModal`: run the remote delete first; only
on remote success run the local `deleteDayData` (whose own throw is
caught and reported as a failed delete).  Returns the final local store,
remote state, and whether the delete was reported successful. -/
def confirmDelete (store : LocalStore) (db : RemoteDB) (dayId dateKey : String)
    (feedersOk turbinesOk dayOk removeOk setIndexOk : Bool) :
    LocalStore × RemoteDB × Bool :=
  let (db', success) := deleteDayFromSupabase db dayId feedersOk turbinesOk dayOk
  if success then
    let (store', localOk) := deleteDayData store dateKey removeOk setIndexOk
    (store', db', localOk)
  else (store, db', false)

/-! ### Hours clamp (`HoursInputField.tsx`) -/

/-- `parseInt(s, 10)`: trim leading whitespace, read an optional sign and
the longest digit prefix; `NaN` (`none`) when no digit follows. -/
def parseIntTen (s : String) : Option ℤ :=
  let cs := s.toList.dropWhile isWs
  let core := fun (cs : List Char) =>
    let ds := cs.takeWhile Char.isDigit
    if ds.isEmpty then none else some (digitsToNat ds : ℤ)
  match cs with
  | '-' :: rest => (core rest).map (fun n => -n)
  | '+' :: rest => core rest
  | _ => core cs

/-- `clampHours`: empty input resolves to `"24"`; non-numeric or `< 1`
input to `"1"`; input `> 24` to `"24"`; otherwise the parsed integer. -/
def clampHours (val : String) : String :=
  if !(truthy val) then "24"
  else
    match parseIntTen val with
    | none => "1"
    | some n => if n < 1 then "1" else if n > 24 then "24" else toString n

/-! ### Monthly aggregation for the Excel report (`generateExcelReport`) -/

/-- Accumulated statistics of one month of the report. -/
structure MonthlyStats where
  month : String
  production : ℚ
  exportTotal : ℚ
  withdrawalTotal : ℚ
  hasExport : Bool
  hasWithdrawal : Bool
  consumption : ℚ
  gasConsumed : ℚ
  daysCount : ℕ
deriving DecidableEq, Repr

/-- The fresh entry created when a month is first seen. -/
def emptyMonthly (mk : String) : MonthlyStats :=
  { month := mk, production := 0, exportTotal := 0, withdrawalTotal := 0,
    hasExport := false, hasWithdrawal := false, consumption := 0,
    gasConsumed := 0, daysCount := 0 }

/-- Fold one day's statistics into its month's entry: production,
consumption, gas and day count always accumulate; the flow total goes to
`exportTotal` when the day's `exportVal` is non-negative (setting
`hasExport`) and otherwise adds `|exportVal|` to `withdrawalTotal`
(setting `hasWithdrawal`). -/
def addDayToMonthly (m : MonthlyStats) (stats : DayStats) : MonthlyStats :=
  let m1 :=
    { m with production := m.production + stats.production
             consumption := m.consumption + stats.consumption
             gasConsumed := m.gasConsumed + stats.gasConsumed
             daysCount := m.daysCount + 1 }
  if stats.isExport then
    { m1 with exportTotal := m1.exportTotal + stats.exportVal,
              hasExport := true }
  else
    { m1 with withdrawalTotal := m1.withdrawalTotal + |stats.exportVal|,
              hasWithdrawal := true }

/-- The `monthlyMap` fold of `generateExcelReport`: group every day by
`monthKey(day.dateKey)` and accumulate (a JavaScript `Map` keeps
first-insertion key order, as the association list does). -/
def monthlyMapFold (allDays : List DayData) : List (String × MonthlyStats) :=
  allDays.foldl
    (fun acc day =>
      let mk := monthKey day.dateKey
      let stats := computeDayStats day
      let cur := (getKey acc mk).getD (emptyMonthly mk)
      setKey acc mk (addDayToMonthly cur stats))
    []

/-- `monthlyList`: the map values sorted by month and capped to the last
12 (`slice(-12)`). -/
def monthlyList (allDays : List DayData) : List MonthlyStats :=
  let sorted := sortByLe (fun a b => decide (a.month ≤ b.month))
    ((monthlyMapFold allDays).map Prod.snd)
  sorted.drop (sorted.length - 12)

/-- `hasMixedModes`: some reported month has both export days and
withdrawal days. -/
def hasMixedModes (allDays : List DayData) : Bool :=
  (monthlyList allDays).any (fun m => m.hasExport && m.hasWithdrawal)

/-- The header row of the monthly summary sheet: seven columns with
separate export and withdrawal columns in the mixed case, six columns
with a single merged flow column otherwise. -/
def monthlySheetHeader (tr : String → String) (allDays : List DayData) :
    List String :=
  if hasMixedModes allDays then
    [tr "month", tr "production" ++ " (MWh)", tr "export" ++ " (MWh)",
     tr "withdrawal" ++ " (MWh)", tr "consumption" ++ " (MWh)",
     tr "gas_consumed" ++ " (m³)", tr "days_count"]
  else
    let allExport := (monthlyList allDays).all
      (fun m => m.hasExport && !m.hasWithdrawal)
    let flowHeader := if allExport then tr "export" else tr "withdrawal"
    [tr "month", tr "production" ++ " (MWh)", flowHeader ++ " (MWh)",
     tr "consumption" ++ " (MWh)", tr "gas_consumed" ++ " (m³)",
     tr "days_count"]

/-! ## Shared lemmas -/

/-- Lookup after update: the updated key reads the new value, any other key
is unaffected. -/
theorem getKey_setKey {α : Type} (l : List (String × α)) (k k' : String)
    (v : α) :
    getKey (setKey l k v) k' = if k' = k then some v else getKey l k' := by
  induction l with
  | nil =>
    by_cases h : k' = k
    · subst h; simp [setKey, getKey]
    · have hk : (k == k') = false := by
        simp only [beq_eq_false_iff_ne, ne_eq]
        exact fun e => h e.symm
      simp [setKey, getKey, hk, h]
  | cons p rest ih =>
    obtain ⟨a, b⟩ := p
    by_cases ha : a = k
    · subst ha
      by_cases h : k' = a
      · subst h; simp [setKey, getKey]
      · have h1 : (a == k') = false := by
          simp only [beq_eq_false_iff_ne, ne_eq]
          exact fun e => h e.symm
        simp [setKey, getKey, h1, h]
    · have ha' : (a == k) = false := by
        simp only [beq_eq_false_iff_ne, ne_eq]
        exact ha
      by_cases h : k' = a
      · subst h
        simp [setKey, getKey, ha', ha]
      · have h3 : (a == k') = false := by
          simp only [beq_eq_false_iff_ne, ne_eq]
          exact fun e => h e.symm
        simp [setKey, getKey, ha', h3, ih]

/-- Lookup through a conditional update of a different key. -/
theorem getKey_condSet_ne {α : Type} (c : Bool) (l : List (String × α))
    (k f : String) (v : α) (h : f ≠ k) :
    getKey (if c then setKey l k v else l) f = getKey l f := by
  cases c <;> simp [getKey_setKey, h]

/-- Lookup through a conditional update of the same key. -/
theorem getKey_condSet_self {α : Type} (c : Bool) (l : List (String × α))
    (k : String) (v : α) :
    getKey (if c then setKey l k v else l) k
      = if c then some v else getKey l k := by
  cases c <;> simp [getKey_setKey]

/-- A found binding is a member of the association list (with the queried
key). -/
theorem getKey_mem {α : Type} (l : List (String × α)) (k : String) (v : α)
    (h : getKey l k = some v) : (k, v) ∈ l := by
  induction l with
  | nil => simp [getKey] at h
  | cons p rest ih =>
    obtain ⟨k', v'⟩ := p
    by_cases hk : k' = k
    · subst hk
      simp [getKey] at h
      simp [h]
    · simp only [getKey] at h
      rw [if_neg (by simp [beq_iff_eq]; exact hk)] at h
      exact List.mem_cons_of_mem _ (ih h)

/-- An additive fold equals the starting value plus the sum of the mapped
list. -/
theorem foldl_add_eq_sum {α : Type} (g : α → ℚ) (l : List α) (a : ℚ) :
    l.foldl (fun acc x => acc + g x) a = a + (l.map g).sum := by
  induction l generalizing a with
  | nil => simp
  | cons x xs ih => simp [ih, add_assoc]

/-! ## C1 — tiered gas lookup -/

/-- C1: `gasForTurbine(diffMwh, mwPerHr)` is a step function of `mwPerHr`
alone with lower-inclusive tier boundaries: `diffMwh*1000` for rates up to
3, `diffMwh*700` on (3,5], `diffMwh*500` on (5,8], `diffMwh*420` above 8;
in particular, for `diffMwh = 10`, the rates 3, 3.0001, 5, 5.0001, 8 and
8.0001 give 10000, 7000, 7000, 5000, 5000 and 4200. -/
theorem gasForTurbine_step :
    (∀ d r : ℚ,
      (r ≤ 3 → gasForTurbine d r = d * 1000) ∧
      (3 < r → r ≤ 5 → gasForTurbine d r = d * 700) ∧
      (5 < r → r ≤ 8 → gasForTurbine d r = d * 500) ∧
      (8 < r → gasForTurbine d r = d * 420)) ∧
    gasForTurbine 10 3 = 10000 ∧
    gasForTurbine 10 (30001 / 10000) = 7000 ∧
    gasForTurbine 10 5 = 7000 ∧
    gasForTurbine 10 (50001 / 10000) = 5000 ∧
    gasForTurbine 10 8 = 5000 ∧
    gasForTurbine 10 (80001 / 10000) = 4200 := by
  constructor
  · intro d r
    refine ⟨fun h => ?_, fun h3 h5 => ?_, fun h5 h8 => ?_, fun h8 => ?_⟩ <;>
      simp only [gasForTurbine] <;> split_ifs <;> first | rfl | linarith
  · refine ⟨?_, ?_, ?_, ?_, ?_, ?_⟩ <;> norm_num [gasForTurbine]

/-- Witness for C1: each tier hypothesis is satisfiable (rates 2, 4, 6, 9). -/
theorem gasForTurbine_step_witness :
    ((2 : ℚ) ≤ 3 ∧ gasForTurbine 1 2 = 1 * 1000) ∧
    ((3 : ℚ) < 4 ∧ (4 : ℚ) ≤ 5 ∧ gasForTurbine 1 4 = 1 * 700) ∧
    ((5 : ℚ) < 6 ∧ (6 : ℚ) ≤ 8 ∧ gasForTurbine 1 6 = 1 * 500) ∧
    ((8 : ℚ) < 9 ∧ gasForTurbine 1 9 = 1 * 420) :=
  ⟨⟨by norm_num, (gasForTurbine_step.1 1 2).1 (by norm_num)⟩,
   ⟨by norm_num, by norm_num,
    (gasForTurbine_step.1 1 4).2.1 (by norm_num) (by norm_num)⟩,
   ⟨by norm_num, by norm_num,
    (gasForTurbine_step.1 1 6).2.2.1 (by norm_num) (by norm_num)⟩,
   ⟨by norm_num, (gasForTurbine_step.1 1 9).2.2.2 (by norm_num)⟩⟩

/-! ## C2 — consumption identity -/

/-- C2: on every surface that derives it (the Excel/text report statistics
and the calculations screen), consumption equals
`turbineProductionMwh(record) - feederExport(record)` exactly, recomputed
from those two functions (the `DayData` record stores no consumption
field). -/
theorem consumption_recomputed :
    ∀ day : DayData,
      (computeDayStats day).consumption
        = turbineProductionMwh day - feederExport day ∧
      (calculationsScreenResults day).consumption
        = turbineProductionMwh day - feederExport day ∧
      (computeDayStats day).production = turbineProductionMwh day ∧
      (computeDayStats day).exportVal = feederExport day ∧
      (calculationsScreenResults day).production = turbineProductionMwh day ∧
      (calculationsScreenResults day).exportVal = feederExport day :=
  fun _ => ⟨rfl, rfl, rfl, rfl, rfl, rfl⟩

/-! ## C7 — hours clamp -/

/-- C7: `clampHours` maps every input string into the inclusive range
[1, 24]: empty input to `"24"`, non-numeric and `< 1` input to `"1"`,
input above 24 to `"24"`; in particular `"0" ↦ "1"`, `"" ↦ "24"`,
`"25" ↦ "24"`, `"-3" ↦ "1"`. -/
theorem clampHours_range :
    (∀ s : String, ∃ n : ℤ, 1 ≤ n ∧ n ≤ 24 ∧ clampHours s = toString n) ∧
    clampHours "0" = "1" ∧ clampHours "" = "24" ∧ clampHours "25" = "24" ∧
    clampHours "-3" = "1" ∧ clampHours "abc" = "1" := by
  refine ⟨?_, rfl, rfl, rfl, rfl, rfl⟩
  intro s
  unfold clampHours
  cases htr : truthy s with
  | false => exact ⟨24, by norm_num, by norm_num, rfl⟩
  | true =>
    simp only [htr, Bool.not_true, Bool.false_eq_true, if_false]
    cases hp : parseIntTen s with
    | none => exact ⟨1, by norm_num, by norm_num, rfl⟩
    | some n =>
      by_cases h1 : n < 1
      · refine ⟨1, by norm_num, by norm_num, ?_⟩
        show (if n < 1 then "1" else if n > 24 then "24" else toString n)
          = toString (1 : ℤ)
        rw [if_pos h1]
        rfl
      · by_cases h24 : n > 24
        · refine ⟨24, by norm_num, by norm_num, ?_⟩
          show (if n < 1 then "1" else if n > 24 then "24" else toString n)
            = toString (24 : ℤ)
          rw [if_neg h1, if_pos h24]
          rfl
        · refine ⟨n, by omega, by omega, ?_⟩
          show (if n < 1 then "1" else if n > 24 then "24" else toString n)
            = toString n
          rw [if_neg h1, if_neg h24]

/-! ## C4 — feeder net flow sign convention -/

/-- A concrete day: feeder F2 read 500 at start of day and 300 at the end. -/
def c4Day : DayData :=
  { dateKey := "2026-01-20",
    feeders := [("F2", { start := "500", endR := "300" })],
    turbines := [] }

/-- C4 counterexample: the local derivation `feederExport` is positive
(net export, +200) for F2 start 500 / end 300, while the remote
month-listing summary computed from the very rows the sync writes for the
same record has `exportVal` negative (−0.2): the month-listing summary
does not use the same sign convention, refuting the claim that every
display surface does. -/
theorem c4_counterexample :
    0 < feederExport c4Day ∧
    (monthDaySummary "id1" "2026-01-20" (some (syncFeederRows c4Day))
        (some (syncTurbineRows c4Day))).exportVal < 0 := by
  constructor
  · have h1 : feederExport c4Day
        = 0 + ((500 : ℚ) - 300) + (0 - 0) + (0 - 0) + (0 - 0) := rfl
    rw [h1]; norm_num
  · have h2 : (monthDaySummary "id1" "2026-01-20" (some (syncFeederRows c4Day))
          (some (syncTurbineRows c4Day))).exportVal
        = 0 + ((300 : ℚ) - 500) / 1000 + (0 - 0) / 1000 + (0 - 0) / 1000
            + (0 - 0) / 1000 := rfl
    rw [h2]; norm_num

/-- C4 (amended): `feederExport` is the signed sum over the fixed feeder
set of `(start - end)` (never an absolute value), with empty/unparsable
readings coerced to 0, and this value is consumed as-is by the report
statistics and the calculations screen; the remote month-listing summary,
however, accumulates the opposite orientation `(end - start)`, scaled by
1/1000, so its `exportVal` does not share the sign convention. -/
theorem feederNet_signed_sum :
    (∀ day : DayData,
      feederExport day =
        (FEEDERS.map (fun f =>
          num ((getKey day.feeders f).map FeederData.start)
            - num ((getKey day.feeders f).map FeederData.endR))).sum) ∧
    (∀ id dk : String, ∀ frows : List FeederRow, ∀ trows : List TurbineRow,
      (monthDaySummary id dk (some frows) (some trows)).exportVal =
        (frows.map (fun r =>
          (parseFloatOr0 r.end_reading - parseFloatOr0 r.start_reading)
            / 1000)).sum) ∧
    (∀ day : DayData,
      (computeDayStats day).exportVal = feederExport day ∧
      (calculationsScreenResults day).exportVal = feederExport day) := by
  refine ⟨?_, ?_, fun day => ⟨rfl, rfl⟩⟩
  · intro day
    simp only [feederExport, FEEDERS, List.foldl_cons, List.foldl_nil,
      List.map_cons, List.map_nil, List.sum_cons, List.sum_nil]
    ring
  · intro id dk frows trows
    simp only [monthDaySummary]
    rw [foldl_add_eq_sum (fun r : FeederRow =>
      (parseFloatOr0 r.end_reading - parseFloatOr0 r.start_reading) / 1000)]
    simp

/-! ## C5 — local-first save, isolated remote failure -/

/-- The index upsert never touches the day map. -/
theorem upsertDayIndex_days (st : LocalStore) (k : String) (b : Bool) :
    (upsertDayIndex st k b).days = st.days := by
  unfold upsertDayIndex
  split
  · rfl
  · split <;> rfl

/-- C5: a failed local write makes `saveDay` fail (propagated `Except`
error); on a successful local write the result is success with exactly
the locally-committed store — the same store for every remote-mirror
outcome, including a thrown remote error — and the committed store holds
the saved record. -/
theorem saveDay_local_first :
    ∀ (store : LocalStore) (day : DayData) (dateKey : String)
      (setIndexOk hasUser : Bool) (ro ro' : Except Unit Bool),
      (saveDay store day dateKey false setIndexOk hasUser ro = .error ()) ∧
      (saveDay store day dateKey true setIndexOk hasUser ro
        = saveDay store day dateKey true setIndexOk hasUser ro') ∧
      (∃ s : LocalStore,
        saveDay store day dateKey true setIndexOk hasUser ro = .ok s ∧
        saveDayData store { day with dateKey := dateKey } true setIndexOk
          = .ok s ∧
        getKey s.days dateKey = some { day with dateKey := dateKey }) := by
  intro store day dateKey setIndexOk hasUser ro ro'
  refine ⟨?_, ?_, ?_⟩
  · cases ro <;> cases hasUser <;> rfl
  · cases ro <;> cases ro' <;> cases hasUser <;> rfl
  · refine ⟨upsertDayIndex
      { store with
        days := setKey store.days dateKey ({ day with dateKey := dateKey }) }
      dateKey setIndexOk, ?_, rfl, ?_⟩
    · cases ro <;> cases hasUser <;> rfl
    · rw [upsertDayIndex_days]
      simp [getKey_setKey]

/-! ## C6 — delete ordering and failure isolation -/

/-- C6: the remote delete removes feeder child rows, then turbine child
rows, then the parent `daily_data` row, stopping at the first failure
(so the parent row is only removed after both child deletions
succeeded); `confirmDelete` leaves the local store — record and date
index — completely untouched whenever any remote step fails, reporting
failure, and removes the local record and index entry only after all
remote steps succeed. -/
theorem delete_order_isolation :
    ∀ (store : LocalStore) (db : RemoteDB) (dayId dateKey : String)
      (b1 b2 rOk iOk : Bool),
      (deleteDayFromSupabase db dayId false b1 b2 = (db, false)) ∧
      (deleteDayFromSupabase db dayId true false b2
        = ({ db with feeders := removeKey db.feeders dayId }, false)) ∧
      (deleteDayFromSupabase db dayId true true false
        = ({ db with feeders := removeKey db.feeders dayId,
                     turbines := removeKey db.turbines dayId }, false)) ∧
      (deleteDayFromSupabase db dayId true true true
        = ({ feeders := removeKey db.feeders dayId,
             turbines := removeKey db.turbines dayId,
             dailyData := removeKey db.dailyData dayId }, true)) ∧
      (confirmDelete store db dayId dateKey false b1 b2 rOk iOk
        = (store, db, false)) ∧
      (confirmDelete store db dayId dateKey true false b2 rOk iOk
        = (store, { db with feeders := removeKey db.feeders dayId }, false)) ∧
      (confirmDelete store db dayId dateKey true true false rOk iOk
        = (store, { db with feeders := removeKey db.feeders dayId,
                            turbines := removeKey db.turbines dayId },
           false)) ∧
      (confirmDelete store db dayId dateKey true true true true true
        = ({ days := removeKey store.days dateKey,
             index := store.index.filter (fun d => !(d == dateKey)),
             settings := store.settings },
           { feeders := removeKey db.feeders dayId,
             turbines := removeKey db.turbines dayId,
             dailyData := removeKey db.dailyData dayId }, true)) :=
  fun _ _ _ _ _ _ _ _ => ⟨rfl, rfl, rfl, rfl, rfl, rfl, rfl, rfl⟩

/-! ## C10 — record completeness at the key level -/

/-- A local store holding a stored record with NO nested feeder/turbine
entries (producible, e.g., by importing a hand-written backup bundle). -/
def c10Store : LocalStore :=
  { days := [("2026-01-01",
      { dateKey := "2026-01-01", feeders := [], turbines := [] })],
    index := ["2026-01-01"],
    settings := none }

/-- C10 counterexample: a local read of a stored record whose nested
feeder/turbine objects are empty returns it as-is — the returned record
has no entry for feeder `F2` or turbine `A`, refuting the claim that
every record returned by a local read contains an entry for every fixed
identifier.  (The `{ ...defaultDay(dateKey), ...parsed }` merge is
shallow: the parsed top-level `feeders`/`turbines` objects replace the
default ones wholesale.) -/
theorem c10_counterexample :
    getKey (getDayData c10Store "2026-01-01").feeders "F2" = none ∧
    getKey (getDayData c10Store "2026-01-01").turbines "A" = none :=
  ⟨rfl, rfl⟩

/-- C10 (amended): the default record and the remote fetch assembly always
contain an entry for every identifier in the fixed feeder and turbine
sets, with missing values defaulted (empty strings for readings, `"24"`
for hours); a local read returns the full default when storage is absent
or unreadable, but returns a present stored record as parsed — its
key-completeness is exactly that of the stored record, since the shallow
top-level merge does not restore missing nested keys. -/
theorem record_key_completeness :
    (∀ (dk f : String), f ∈ FEEDERS →
      getKey (defaultDay dk).feeders f = some { start := "", endR := "" }) ∧
    (∀ (dk t : String), t ∈ TURBINES →
      getKey (defaultDay dk).turbines t
        = some { previous := "", present := "", hours := "24" }) ∧
    (∀ (store : LocalStore) (dk : String), getKey store.days dk = none →
      getDayData store dk = defaultDay dk) ∧
    (∀ (store : LocalStore) (dk : String) (r : DayData),
      getKey store.days dk = some r → getDayData store dk = r) ∧
    (∀ (dk : String) (fd : Option (List FeederRow))
        (td : Option (List TurbineRow)) (f : String), f ∈ FEEDERS →
      ∃ e, getKey (fetchDayAssemble dk fd td).feeders f = some e) ∧
    (∀ (dk : String) (fd : Option (List FeederRow))
        (td : Option (List TurbineRow)) (t : String), t ∈ TURBINES →
      ∃ e, getKey (fetchDayAssemble dk fd td).turbines t = some e) := by
  refine ⟨?_, ?_, ?_, ?_, ?_, ?_⟩
  · intro dk f hf
    fin_cases hf <;> rfl
  · intro dk t ht
    fin_cases ht <;> rfl
  · intro store dk h
    simp [getDayData, h]
  · intro store dk r h
    simp [getDayData, h]
  · intro dk fd td f hf
    fin_cases hf <;> exact ⟨_, rfl⟩
  · intro dk fd td t ht
    fin_cases ht <;> exact ⟨_, rfl⟩

/-- A well-formed one-day store used to witness the completeness
statements. -/
def w10Store : LocalStore :=
  { days := [("2026-01-02", defaultDay "2026-01-02")],
    index := ["2026-01-02"],
    settings := none }

/-- Witness for C10 (amended): each hypothesis is satisfiable — concrete
identifiers in the fixed sets, an absent-key read, and a stored-record
read. -/
theorem record_key_completeness_witness :
    getKey (defaultDay "2026-01-01").feeders "F2"
      = some { start := "", endR := "" } ∧
    getKey (defaultDay "2026-01-01").turbines "A"
      = some { previous := "", present := "", hours := "24" } ∧
    getDayData emptyStore "2026-01-01" = defaultDay "2026-01-01" ∧
    getDayData w10Store "2026-01-02" = defaultDay "2026-01-02" ∧
    (∃ e, getKey (fetchDayAssemble "2026-01-01" none none).feeders "F3"
      = some e) ∧
    (∃ e, getKey (fetchDayAssemble "2026-01-01" none none).turbines "S"
      = some e) :=
  ⟨record_key_completeness.1 "2026-01-01" "F2" (by simp [FEEDERS]),
   record_key_completeness.2.1 "2026-01-01" "A" (by simp [TURBINES]),
   record_key_completeness.2.2.1 emptyStore "2026-01-01" rfl,
   record_key_completeness.2.2.2.1 w10Store "2026-01-02" _ rfl,
   record_key_completeness.2.2.2.2.1 "2026-01-01" none none "F3"
     (by simp [FEEDERS]),
   record_key_completeness.2.2.2.2.2 "2026-01-01" none none "S"
     (by simp [TURBINES])⟩

/-! ## C3 — carry-forward linking -/

/-- Lookup characterization of the linking fold: over a duplicate-free key
list, each key is conditionally replaced by an entry built from its own
original binding, and all other keys are untouched. -/
theorem getKey_linkFold {α : Type} (keys : List String)
    (init : List (String × α)) (cond : String → Bool)
    (mkE : String → Option α → α) (f : String) (hnd : keys.Nodup) :
    getKey (keys.foldl
        (fun lf k => if cond k then setKey lf k (mkE k (getKey lf k)) else lf)
        init) f
      = if f ∈ keys ∧ cond f = true then some (mkE f (getKey init f))
        else getKey init f := by
  induction keys generalizing init with
  | nil => simp
  | cons k ks ih =>
    simp only [List.foldl_cons]
    have hnd' := List.nodup_cons.mp hnd
    rw [ih _ hnd'.2]
    by_cases hf : f = k
    · subst hf
      have hfks : f ∉ ks := hnd'.1
      rw [getKey_condSet_self]
      by_cases hc : cond f
      · simp [hfks, hc]
      · simp [hfks, hc]
    · rw [getKey_condSet_ne _ _ _ _ _ hf]
      simp [List.mem_cons, hf]

/-- C3: the linked read preserves the date key; it returns the current
record unchanged when the previous date key is unparsable (empty) or no
record is stored for it; and against a stored previous-day record, each
fixed feeder's entry has its `start` replaced by yesterday's `end`
exactly when yesterday's `end` is truthy and today's `start` is falsy
(likewise each fixed turbine's `previous` from yesterday's `present`),
every other key and field passing through unchanged — in particular an
already-entered value is never overwritten, and the stored records
themselves are not modified (the operation is a pure read-time
enrichment). -/
theorem linking_characterization :
    ∀ (store : LocalStore) (dateKey fkey tkey : String),
      (getDayDataWithLinkedValues store dateKey).dateKey
        = (getDayData store dateKey).dateKey ∧
      ((getPreviousDateKey dateKey = "" ∨
          getKey store.days (getPreviousDateKey dateKey) = none) →
        getDayDataWithLinkedValues store dateKey = getDayData store dateKey) ∧
      (∀ prevDay : DayData,
        getKey store.days (getPreviousDateKey dateKey) = some prevDay →
        getPreviousDateKey dateKey ≠ "" →
        getKey (getDayDataWithLinkedValues store dateKey).feeders fkey
          = (if fkey ∈ FEEDERS ∧
                (otruthy ((getKey prevDay.feeders fkey).map FeederData.endR) &&
                  !(otruthy ((getKey (getDayData store dateKey).feeders fkey).map
                      FeederData.start))) = true then
              some { start :=
                       ((getKey prevDay.feeders fkey).map FeederData.endR).getD ""
                     endR :=
                       ((getKey (getDayData store dateKey).feeders fkey).map
                         FeederData.endR).getD "" }
            else getKey (getDayData store dateKey).feeders fkey) ∧
        getKey (getDayDataWithLinkedValues store dateKey).turbines tkey
          = (if tkey ∈ TURBINES ∧
                (otruthy ((getKey prevDay.turbines tkey).map TurbineData.present) &&
                  !(otruthy ((getKey (getDayData store dateKey).turbines tkey).map
                      TurbineData.previous))) = true then
              some { previous :=
                       ((getKey prevDay.turbines tkey).map TurbineData.present).getD ""
                     present :=
                       ((getKey (getDayData store dateKey).turbines tkey).map
                         TurbineData.present).getD ""
                     hours :=
                       ((getKey (getDayData store dateKey).turbines tkey).map
                         TurbineData.hours).getD "" }
            else getKey (getDayData store dateKey).turbines tkey)) := by
  intro store dateKey fkey tkey
  by_cases hpk : getPreviousDateKey dateKey = ""
  · have hb : (getPreviousDateKey dateKey == "") = true := by
      simp [hpk]
    refine ⟨?_, fun _ => ?_, fun prevDay hsome hne => absurd hpk hne⟩ <;>
      simp [getDayDataWithLinkedValues, hb]
  · have hb : (getPreviousDateKey dateKey == "") = false := by
      simp [hpk]
    cases hstored : getKey store.days (getPreviousDateKey dateKey) with
    | none =>
      refine ⟨?_, fun _ => ?_, fun prevDay hsome _ => ?_⟩
      · simp [getDayDataWithLinkedValues, hb, hstored]
      · simp [getDayDataWithLinkedValues, hb, hstored]
      · exact absurd hsome (by simp)
    | some prev =>
      refine ⟨?_, fun hor => ?_, fun prevDay hsome _ => ?_⟩
      · simp [getDayDataWithLinkedValues, hb, hstored]
      · rcases hor with h | h
        · exact absurd h hpk
        · exact absurd h (by simp)
      · injection hsome with hprev
        subst hprev
        constructor
        · simp only [getDayDataWithLinkedValues, hb, Bool.false_eq_true,
            if_false, hstored]
          exact getKey_linkFold FEEDERS (getDayData store dateKey).feeders
            (fun f => otruthy ((getKey prev.feeders f).map FeederData.endR) &&
              !(otruthy ((getKey (getDayData store dateKey).feeders f).map
                  FeederData.start)))
            (fun f o =>
              { start := ((getKey prev.feeders f).map FeederData.endR).getD ""
                endR := (o.map FeederData.endR).getD "" })
            fkey (by decide)
        · simp only [getDayDataWithLinkedValues, hb, Bool.false_eq_true,
            if_false, hstored]
          exact getKey_linkFold TURBINES (getDayData store dateKey).turbines
            (fun t => otruthy ((getKey prev.turbines t).map TurbineData.present) &&
              !(otruthy ((getKey (getDayData store dateKey).turbines t).map
                  TurbineData.previous)))
            (fun t o =>
              { previous := ((getKey prev.turbines t).map TurbineData.present).getD ""
                present := (o.map TurbineData.present).getD ""
                hours := (o.map TurbineData.hours).getD "" })
            tkey (by decide)

/-- Yesterday's record for the linking witness: feeder ends and turbine
presents entered. -/
def w3Yesterday : DayData :=
  { dateKey := "2026-01-19",
    feeders := [("F2", { start := "1", endR := "100" }),
                ("F3", { start := "2", endR := "70" })],
    turbines := [("A", { previous := "5", present := "60", hours := "24" })] }

/-- Today's record for the linking witness: F2 start empty (to be linked),
F3 start already entered as "50" (not to be overwritten). -/
def w3Today : DayData :=
  { dateKey := "2026-01-20",
    feeders := [("F2", { start := "", endR := "7" }),
                ("F3", { start := "50", endR := "" })],
    turbines := [("A", { previous := "", present := "", hours := "24" })] }

/-- Store holding the two linking-witness records. -/
def w3Store : LocalStore :=
  { days := [("2026-01-19", w3Yesterday), ("2026-01-20", w3Today)],
    index := ["2026-01-19", "2026-01-20"],
    settings := none }

/-- Witness for C3: yesterday's `end` "100" is carried into today's empty
F2 `start`; today's explicit F3 `start` "50" survives; the turbine
`previous` is carried from yesterday's `present`; and a date with no
stored previous record loads unchanged. -/
theorem linking_characterization_witness :
    getKey (getDayDataWithLinkedValues w3Store "2026-01-20").feeders "F2"
      = some { start := "100", endR := "7" } ∧
    getKey (getDayDataWithLinkedValues w3Store "2026-01-20").feeders "F3"
      = some { start := "50", endR := "" } ∧
    getKey (getDayDataWithLinkedValues w3Store "2026-01-20").turbines "A"
      = some { previous := "60", present := "", hours := "24" } ∧
    getDayDataWithLinkedValues w3Store "2026-01-07"
      = getDayData w3Store "2026-01-07" := by
  refine ⟨?_, ?_, ?_, ?_⟩
  · have h := ((linking_characterization w3Store "2026-01-20" "F2" "A").2.2
      w3Yesterday rfl (by decide)).1
    rw [h]; rfl
  · have h := ((linking_characterization w3Store "2026-01-20" "F3" "A").2.2
      w3Yesterday rfl (by decide)).1
    rw [h]; rfl
  · have h := ((linking_characterization w3Store "2026-01-20" "F2" "A").2.2
      w3Yesterday rfl (by decide)).2
    rw [h]; rfl
  · exact (linking_characterization w3Store "2026-01-07" "F2" "A").2.1
      (Or.inr rfl)

/-! ## C8 — export / import round trip -/

/-- Lookup in the day map after the import fold: the last imported day
with a given date key wins; keys no imported day carries are untouched.
Under the hypothesis that every imported day carrying key `k` equals `w`,
the lookup is `w` exactly when some imported day carries `k`. -/
theorem getKey_importFold (ds : List DayData) (s : LocalStore) (k : String)
    (w : DayData) (hw : ∀ d ∈ ds, d.dateKey = k → d = w) :
    getKey ((ds.foldl (fun s d =>
        match saveDayData s d true true with
        | .ok s' => s'
        | .error _ => s) s).days) k
      = if ds.any (fun d => d.dateKey == k) then some w
        else getKey s.days k := by
  induction ds generalizing s with
  | nil => simp
  | cons d ds ih =>
    simp only [List.foldl_cons, List.any_cons]
    rw [ih _ (fun d' hd' => hw d' (List.mem_cons_of_mem _ hd'))]
    have hstep : (match saveDayData s d true true with
        | .ok s' => s'
        | .error _ => s).days = setKey s.days d.dateKey d := by
      show (upsertDayIndex
        { s with days := setKey s.days d.dateKey d } d.dateKey true).days
        = setKey s.days d.dateKey d
      exact upsertDayIndex_days _ _ _
    rw [hstep]
    by_cases hdk : d.dateKey = k
    · have hdw : d = w := hw d (List.mem_cons_self _ _) hdk
      subst hdw
      rw [getKey_setKey]
      simp [hdk]
    · rw [getKey_setKey]
      have hne : ¬k = d.dateKey := fun e => hdk e.symm
      have hb : (d.dateKey == k) = false := by
        simp only [beq_eq_false_iff_ne, ne_eq]
        exact hdk
      simp [hne, hb]

/-- The date key of a read record equals the requested key whenever every
stored record carries its own key. -/
theorem getDayData_dateKey (store : LocalStore)
    (hwf : ∀ p ∈ store.days, (p.2).dateKey = p.1) (k : String) :
    (getDayData store k).dateKey = k := by
  unfold getDayData
  cases h : getKey store.days k with
  | none => rfl
  | some r => exact hwf (k, r) (getKey_mem _ _ _ h)

/-- C8: for every local store whose stored records carry their own date
key (as every record written by `saveDayData` does), exporting all day
records and re-importing the bundle into empty storage reproduces, under
every indexed date key, exactly the record the export read for that key;
in particular each stored record round-trips identically (a date key
indexed without a stored record exports — and therefore re-imports — the
default record). -/
theorem export_import_roundtrip :
    ∀ (store : LocalStore) (now : String),
      (∀ p ∈ store.days, (p.2).dateKey = p.1) →
      ∀ k, k ∈ store.index →
        getKey (importData emptyStore (exportAllData store now)).days k
          = some (getDayData store k) ∧
        ∀ r, getKey store.days k = some r → getDayData store k = r := by
  intro store now hwf k hk
  constructor
  · have hdays : (importData emptyStore (exportAllData store now)).days
        = (((exportAllData store now).days).foldl (fun s d =>
            match saveDayData s d true true with
            | .ok s' => s'
            | .error _ => s) emptyStore).days := rfl
    rw [hdays]
    rw [getKey_importFold _ _ _ (getDayData store k) ?hw]
    case hw =>
      intro d hd hdk
      simp only [exportAllData, getAllDaysData, List.mem_map] at hd
      obtain ⟨k', hk', hdk'⟩ := hd
      subst hdk'
      rw [getDayData_dateKey store hwf k'] at hdk
      rw [hdk]
    have hany : ((exportAllData store now).days).any
        (fun d => d.dateKey == k) = true := by
      apply List.any_eq_true.mpr
      refine ⟨getDayData store k, ?_, ?_⟩
      · simp only [exportAllData, getAllDaysData]
        exact List.mem_map_of_mem _ hk
      · simp [getDayData_dateKey store hwf k]
    rw [hany]
    rfl
  · intro r hr
    simp [getDayData, hr]

/-- A well-formed store for the round-trip witness. -/
def w8Store : LocalStore :=
  { days := [("2026-01-02",
      { dateKey := "2026-01-02",
        feeders := [("F2", { start := "10", endR := "20" })],
        turbines := [("A", { previous := "3", present := "4", hours := "12" })] })],
    index := ["2026-01-02"],
    settings := some { displayName := "Engineer", decimalPrecision := 2 } }

/-- Witness for C8: the well-formedness and membership hypotheses are
satisfiable and the round trip reproduces the concrete stored record. -/
theorem export_import_roundtrip_witness :
    getKey (importData emptyStore
        (exportAllData w8Store "2026-02-01T00:00:00.000Z")).days "2026-01-02"
      = some (getDayData w8Store "2026-01-02") ∧
    getDayData w8Store "2026-01-02"
      = { dateKey := "2026-01-02",
          feeders := [("F2", { start := "10", endR := "20" })],
          turbines := [("A", { previous := "3", present := "4", hours := "12" })] } :=
  ⟨(export_import_roundtrip w8Store "2026-02-01T00:00:00.000Z"
      (by decide) "2026-01-02" (by decide)).1,
   (export_import_roundtrip w8Store "2026-02-01T00:00:00.000Z"
      (by decide) "2026-01-02" (by decide)).2 _ rfl⟩

/-! ## C9 — monthly aggregation for the Excel report -/

/-- Specification-side monthly aggregate: the statistics of one month,
folded day by day over exactly the days of that month (`none` when the
month has no day).  Written from the spec's wording for comparison with
the grouping fold of `generateExcelReport`. -/
def specMonthAgg (mk : String) (ds : List DayData) : Option MonthlyStats :=
  match ds with
  | [] => none
  | _ :: _ =>
    some (ds.foldl (fun m d => addDayToMonthly m (computeDayStats d))
      (emptyMonthly mk))

/-- Lookup characterization of the grouping fold: the entry of month `k`
accumulates exactly the days whose date key has month prefix `k`, in
order. -/
theorem getKey_monthlyFold (days : List DayData)
    (acc : List (String × MonthlyStats)) (k : String) :
    getKey (days.foldl (fun acc day =>
        let mk := monthKey day.dateKey
        let stats := computeDayStats day
        let cur := (getKey acc mk).getD (emptyMonthly mk)
        setKey acc mk (addDayToMonthly cur stats)) acc) k
      = (days.filter (fun d => monthKey d.dateKey == k)).foldl
          (fun o d => some (addDayToMonthly (o.getD (emptyMonthly k))
            (computeDayStats d)))
          (getKey acc k) := by
  induction days generalizing acc with
  | nil => simp
  | cons d ds ih =>
    simp only [List.foldl_cons, List.filter_cons]
    rw [ih]
    by_cases hm : monthKey d.dateKey = k
    · subst hm
      have hb : (monthKey d.dateKey == monthKey d.dateKey) = true := by simp
      simp only [hb, if_true]
      rw [getKey_setKey]
      simp
    · have hb : (monthKey d.dateKey == k) = false := by
        simp only [beq_eq_false_iff_ne, ne_eq]
        exact hm
      simp only [hb, Bool.false_eq_true, if_false]
      rw [getKey_setKey]
      rw [if_neg (fun e => hm e.symm)]

/-- The option-valued fold started at an existing entry is the pure
fold. -/
theorem optFold_some (k : String) (ds : List DayData) (m : MonthlyStats) :
    ds.foldl (fun o d => some (addDayToMonthly (o.getD (emptyMonthly k))
        (computeDayStats d))) (some m)
      = some (ds.foldl (fun m d => addDayToMonthly m (computeDayStats d)) m) := by
  induction ds generalizing m with
  | nil => rfl
  | cons d ds ih =>
    simp only [List.foldl_cons, Option.getD_some]
    exact ih _

/-- The option-valued fold from `none` is the specification aggregate. -/
theorem optFold_specMonthAgg (k : String) (ds : List DayData) :
    ds.foldl (fun o d => some (addDayToMonthly (o.getD (emptyMonthly k))
        (computeDayStats d))) none = specMonthAgg k ds := by
  cases ds with
  | nil => rfl
  | cons d ds =>
    simp only [List.foldl_cons, specMonthAgg, Option.getD_none]
    exact optFold_some k ds _

/-- C9: the monthly report fold groups days by the 7-character month
prefix of their date key — the entry of month `k` is exactly the
spec-side aggregate of the days whose `monthKey` is `k`; a day's flow is
routed by the sign of its feeder net flow (`isExport` is exactly
`0 ≤ feederExport day`), accumulating `exportVal` into the export total
or `|exportVal|` into the withdrawal total; and the monthly sheet has
the seven-column layout with separate export and withdrawal columns
exactly when some reported month is mixed-sign (six columns with one
merged flow column otherwise), any reported month that has both export
days and withdrawal days forcing the mixed layout. -/
theorem monthly_grouping :
    (∀ (days : List DayData) (k : String),
      getKey (monthlyMapFold days) k
        = specMonthAgg k (days.filter (fun d => monthKey d.dateKey == k))) ∧
    (∀ day : DayData,
      (computeDayStats day).isExport = decide (0 ≤ feederExport day)) ∧
    (∀ (m : MonthlyStats) (s : DayStats), s.isExport = true →
      (addDayToMonthly m s).exportTotal = m.exportTotal + s.exportVal ∧
      (addDayToMonthly m s).withdrawalTotal = m.withdrawalTotal ∧
      (addDayToMonthly m s).hasExport = true) ∧
    (∀ (m : MonthlyStats) (s : DayStats), s.isExport = false →
      (addDayToMonthly m s).withdrawalTotal
        = m.withdrawalTotal + |s.exportVal| ∧
      (addDayToMonthly m s).exportTotal = m.exportTotal ∧
      (addDayToMonthly m s).hasWithdrawal = true) ∧
    (∀ (tr : String → String) (days : List DayData),
      (monthlySheetHeader tr days).length
        = if hasMixedModes days then 7 else 6) ∧
    (∀ (days : List DayData) (m : MonthlyStats), m ∈ monthlyList days →
      m.hasExport = true → m.hasWithdrawal = true →
      hasMixedModes days = true) := by
  refine ⟨?_, ?_, ?_, ?_, ?_, ?_⟩
  · intro days k
    have h := getKey_monthlyFold days [] k
    rw [show getKey ([] : List (String × MonthlyStats)) k = none from rfl] at h
    rw [optFold_specMonthAgg] at h
    exact h
  · intro day
    rfl
  · intro m s h
    refine ⟨?_, ?_, ?_⟩ <;> simp [addDayToMonthly, h]
  · intro m s h
    refine ⟨?_, ?_, ?_⟩ <;> simp [addDayToMonthly, h]
  · intro tr days
    by_cases h : hasMixedModes days = true
    · simp [monthlySheetHeader, h]
    · simp only [Bool.not_eq_true] at h
      simp [monthlySheetHeader, h]
  · intro days m hm hE hW
    unfold hasMixedModes
    exact List.any_eq_true.mpr ⟨m, hm, by simp [hE, hW]⟩

/-- An export day for the aggregation witness (the blank record has zero
net flow, which counts as export). -/
def w9d1 : DayData := defaultDay "2026-01-05"

/-- A withdrawal day in the same month: F2 net flow −100. -/
def w9d2 : DayData :=
  { dateKey := "2026-01-07",
    feeders := [("F2", { start := "", endR := "100" })],
    turbines := [] }

/-- The single aggregated month of the two witness days. -/
def w9m : MonthlyStats :=
  addDayToMonthly (addDayToMonthly (emptyMonthly "2026-01")
    (computeDayStats w9d1)) (computeDayStats w9d2)

/-- Witness for C9: a month with one export day and one withdrawal day is
reported mixed, with the seven-column layout. -/
theorem monthly_grouping_witness :
    hasMixedModes [w9d1, w9d2] = true ∧
    (monthlySheetHeader (fun s => s) [w9d1, w9d2]).length = 7 := by
  have h1 : (computeDayStats w9d1).isExport = true := by
    have h : (computeDayStats w9d1).isExport
        = decide ((0 : ℚ) ≤ 0 + ((0 : ℚ) - 0) + (0 - 0) + (0 - 0) + (0 - 0)) :=
      rfl
    rw [h]
    norm_num
  have h2 : (computeDayStats w9d2).isExport = false := by
    have h : (computeDayStats w9d2).isExport
        = decide ((0 : ℚ) ≤ 0 + ((0 : ℚ) - 100) + (0 - 0) + (0 - 0) + (0 - 0)) :=
      rfl
    rw [h]
    norm_num
  have hE : w9m.hasExport = true := by
    simp [w9m, addDayToMonthly, h1, h2]
  have hW : w9m.hasWithdrawal = true := by
    simp [w9m, addDayToMonthly, h2]
  have hmem : w9m ∈ monthlyList [w9d1, w9d2] := by
    have hl : monthlyList [w9d1, w9d2] = [w9m] := rfl
    rw [hl]
    exact List.mem_singleton_self _
  have hmix := monthly_grouping.2.2.2.2.2 [w9d1, w9d2] w9m hmem hE hW
  refine ⟨hmix, ?_⟩
  rw [monthly_grouping.2.2.2.2.1 (fun s => s) [w9d1, w9d2], hmix]
  rfl

end PP
